import Mathlib

/-!
Verification of the complex-pdf pipeline's metadata layer.

Shallow embedding of:
- the metadata merge engine
  (`complex_pdf/extraction/metadata/extract_image_metadata.py`,
   `complex_pdf/core/utils.py`),
- the context window builder
  (`complex_pdf/indexing/metadata/extract_page_context.py`),
- the pipeline orchestrator (`complex_pdf/pipeline/processor.py`),
- the context-generation step (`complex_pdf/pipeline/steps/context_step.py`),
- the cost ledger (`complex_pdf/core/llm/litellm_client.py`).

Python dictionaries of known shape are modelled as structures whose fields are
`Option`-valued (`none` = key absent); `dict.get(k, d)` becomes `Option.getD`.
Arbitrary extra keys that the code never touches are carried in a `rest` field
where a claim mentions them.
-/

namespace ComplexPdf

/-- Python truthiness of an optional string: `None` and `""` are falsy. -/
def strTruthy : Option String → Bool
  | none => false
  | some s => !s.isEmpty

/-- Python truthiness of an optional list: `None` and `[]` are falsy. -/
def listTruthy {α : Type} : Option (List α) → Bool
  | none => false
  | some l => !l.isEmpty

/-- Insertion-ordered dictionary update: overwriting a key keeps its position,
a fresh key is appended at the end (Python `d[k] = v`). -/
def dictInsert {α : Type} (m : List (String × α)) (k : String) (v : α) :
    List (String × α) :=
  if m.any (fun p => p.1 = k) then
    m.map (fun p => if p.1 = k then (k, v) else p)
  else m ++ [(k, v)]

/-- Dictionary lookup (Python `d[k]` / `k in d`). -/
def dictLookup {α : Type} (m : List (String × α)) (k : String) : Option α :=
  (m.find? (fun p => p.1 = k)).map Prod.snd

/-- Python `k in d`. -/
def dictContains {α : Type} (m : List (String × α)) (k : String) : Bool :=
  m.any (fun p => p.1 = k)

/-! ### Metadata merge engine: sub-element correlation
`extract_image_metadata.py`, `enhance_content_elements_with_image_metadata`. -/

/-- One record of the `image_metadata` list (shape of `ImageMetadataResponse`
from `extraction/schemas.py` plus the `image_id`/`image_file` identifiers added
by `process_all_images`). `none` models an absent key. -/
structure ImgMeta where
  image_id : Option String := none
  image_file : Option String := none
  image_type : Option String := none
  natural_description : Option String := none
  title : Option String := none
  summary : Option String := none
  keywords : Option (List String) := none
  entities : Option (List String) := none
  dates : Option (List String) := none
  locations : Option (List String) := none
  model_name : Option String := none
  component_type : Option String := none
  model_applicability : Option (List String) := none
  application_context : Option (List String) := none
  related_tables : Option (List String) := none
  deriving DecidableEq

/-- One entry of `content_elements` inside a context-metadata record. -/
structure ContentElement where
  type : Option String := none
  element_id : Option String := none
  image_type : Option String := none
  natural_description : Option String := none
  title : Option String := none
  summary : Option String := none
  keywords : Option (List String) := none
  entities : Option (List String) := none
  dates : Option (List String) := none
  locations : Option (List String) := none
  model_name : Option String := none
  component_type : Option String := none
  model_applicability : Option (List String) := none
  application_context : Option (List String) := none
  related_tables : Option (List String) := none
  deriving DecidableEq

/-- The slice of a context-metadata dictionary that
`enhance_content_elements_with_image_metadata` reads or writes; every other
key of the dictionary is untouched by that function. -/
structure ContextMetadata where
  image_metadata : Option (List ImgMeta) := none
  content_elements : Option (List ContentElement) := none
  deriving DecidableEq

/-- Longest leading run of decimal digits and the remainder
(the greedy regex fragment for one digit group). -/
def takeDigits : List Char → List Char × List Char
  | [] => ([], [])
  | c :: cs =>
    if c.isDigit then
      let p := takeDigits cs
      (c :: p.1, p.2)
    else ([], c :: cs)

/-- Strip the leading alternation of the pattern: `figure-` or `image-`.
The two alternatives differ at their first character, so trying them in the
regex's order is unambiguous. -/
def stripKindMarker (cs : List Char) : Option (List Char) :=
  if cs.take 7 = "figure-".toList then some (cs.drop 7)
  else if cs.take 6 = "image-".toList then some (cs.drop 6)
  else none

/-- Prefix match of `re.match(r"(?:figure|image)-(\d+)-(\d+)", element_id)`:
returns the two captured digit groups. `re.match` anchors only at the start,
so trailing characters after the second digit run are ignored. -/
def parseFigureId (element_id : String) : Option (String × String) :=
  match stripKindMarker element_id.toList with
  | none => none
  | some rest =>
    let pPage := takeDigits rest
    if pPage.1.isEmpty then none
    else
      match pPage.2 with
      | [] => none
      | c :: rest2 =>
        if c = '-' then
          let pIdx := takeDigits rest2
          if pIdx.1.isEmpty then none
          else some (String.mk pPage.1, String.mk pIdx.1)
        else none

/-- The `image_metadata_map` built by the source: keyed by
`img_meta.get("image_id", "")`, a later record with the same id overwrites an
earlier one (Python dict assignment in iteration order). -/
def buildImageMetadataMap (metas : List ImgMeta) : List (String × ImgMeta) :=
  metas.foldl (fun m meta => dictInsert m (meta.image_id.getD "") meta) []

/-- Probe the two spellings in the source's order: `image-N-X` first, then
`figure-N-X`; the first hit wins. (The source then tests the matched dict for
truthiness; every record stored under a probed key carries a non-empty
`image_id`, hence is a non-empty dict, so that test coincides with the `none`
check here.) -/
def findMatchedImageMeta (m : List (String × ImgMeta)) (page idx : String) :
    Option ImgMeta :=
  match dictLookup m ("image-" ++ page ++ "-" ++ idx) with
  | some meta => some meta
  | none => dictLookup m ("figure-" ++ page ++ "-" ++ idx)

/-- `list(set(a).union(set(b)))`. Python's set iteration order is unspecified;
it is modelled as first-occurrence deduplication of `a ++ b`, which has the
same underlying set of elements and no duplicates. -/
def setUnionList (a b : List String) : List String := (a ++ b).dedup

/-- Body of the enhancement applied to one element once a metadata record has
matched (source lines 72-113): `image_type` and `natural_description` are
written unconditionally (defaulting to `""`), the remaining fields only when
the record's value is truthy; `keywords`/`entities` are union-merged. -/
def enhanceElementWith (m : ImgMeta) (e0 : ContentElement) : ContentElement :=
  let e1 := { e0 with image_type := some (m.image_type.getD "") }
  let e2 := { e1 with natural_description := some (m.natural_description.getD "") }
  let e3 := if strTruthy m.title then { e2 with title := m.title } else e2
  let e4 := if strTruthy m.summary then { e3 with summary := m.summary } else e3
  let e5 := { e4 with
    keywords := some (setUnionList (e4.keywords.getD []) (m.keywords.getD [])) }
  let e6 := { e5 with
    entities := some (setUnionList (e5.entities.getD []) (m.entities.getD [])) }
  let e7 := if listTruthy m.dates then { e6 with dates := m.dates } else e6
  let e8 := if listTruthy m.locations then { e7 with locations := m.locations } else e7
  let e9 := if strTruthy m.model_name then { e8 with model_name := m.model_name } else e8
  let e10 := if strTruthy m.component_type
    then { e9 with component_type := m.component_type } else e9
  let e11 := if listTruthy m.model_applicability
    then { e10 with model_applicability := m.model_applicability } else e10
  let e12 := if listTruthy m.application_context
    then { e11 with application_context := m.application_context } else e11
  if listTruthy m.related_tables then { e12 with related_tables := m.related_tables }
  else e12

/-- The per-element loop body: skip elements whose `type` is not `"figure"`,
whose `element_id` does not match the pattern, or that have no matching
record; otherwise enhance. -/
def enhanceOneElement (m : List (String × ImgMeta)) (e : ContentElement) :
    ContentElement :=
  if e.type = some "figure" then
    match parseFigureId (e.element_id.getD "") with
    | none => e
    | some pi =>
      match findMatchedImageMeta m pi.1 pi.2 with
      | none => e
      | some meta => enhanceElementWith meta e
  else e

/-- `enhance_content_elements_with_image_metadata` (source lines 18-119):
identity when `image_metadata` is absent/empty or `content_elements` is
absent; otherwise enhances each content element against the id-keyed lookup. -/
def enhance_content_elements_with_image_metadata (ctx : ContextMetadata) :
    ContextMetadata :=
  match ctx.image_metadata with
  | none => ctx
  | some [] => ctx
  | some (meta :: metas) =>
    match ctx.content_elements with
    | none => ctx
    | some elems =>
      let m := buildImageMetadataMap (meta :: metas)
      { ctx with content_elements := some (elems.map (enhanceOneElement m)) }

/-! ### Metadata merge engine: flag enhancement
`core/utils.py`, `enhance_context_metadata` (lines 34-81). The function reads
two JSON files and merges the parsed dictionaries; the embedding takes the two
parsed records. -/

/-- Echo of the raw id lists written under `content_summary`. -/
structure ContentSummary where
  tables : List String
  figures : List String
  text_blocks : List String
  deriving DecidableEq

/-- A context-metadata record as seen by `enhance_context_metadata`: the seven
keys the function writes, plus `rest` carrying every other pre-existing key
(the code copies the dict and only updates those seven keys). -/
structure CtxRecord where
  has_tables : Option Bool := none
  has_figures : Option Bool := none
  has_text_blocks : Option Bool := none
  table_count : Option Nat := none
  figure_count : Option Nat := none
  text_block_count : Option Nat := none
  content_summary : Option ContentSummary := none
  rest : List (String × String) := []
  deriving DecidableEq

/-- A structural (basic) metadata record as read by `enhance_context_metadata`:
only `tables`, `figures`, `text_blocks` are consulted, each via
`.get(key, [])`. -/
structure BasicMetadata where
  tables : Option (List String) := none
  figures : Option (List String) := none
  text_blocks : Option (List String) := none
  deriving DecidableEq

/-- `enhance_context_metadata`: copy the context record and update the flag,
count and summary fields from the basic record's id lists. -/
def enhance_context_metadata (context_metadata : CtxRecord)
    (basic_metadata : BasicMetadata) : CtxRecord :=
  let tables := basic_metadata.tables.getD []
  let figures := basic_metadata.figures.getD []
  let text_blocks := basic_metadata.text_blocks.getD []
  { context_metadata with
    has_tables := some (decide (tables.length > 0))
    has_figures := some (decide (figures.length > 0))
    has_text_blocks := some (decide (text_blocks.length > 0))
    table_count := some tables.length
    figure_count := some figures.length
    text_block_count := some text_blocks.length
    content_summary := some ⟨tables, figures, text_blocks⟩ }

/-! ### Context window builder
`indexing/metadata/extract_page_context.py`, `get_page_context` (lines
38-130), and the file utilities it calls (`core/utils.py` lines 6-31). The
filesystem is modelled as a set of existing directories plus a map from file
paths to contents. -/

/-- Filesystem snapshot: existing directory paths and files with contents. -/
structure FS where
  dirs : List String
  files : List (String × String)
  deriving DecidableEq

def FS.dirExists (fs : FS) (p : String) : Bool := fs.dirs.contains p

def FS.fileExists (fs : FS) (p : String) : Bool := fs.files.any (fun q => q.1 = p)

def FS.readFile (fs : FS) (p : String) : Option String := dictLookup fs.files p

/-- The exception kinds `get_page_context` and its helpers can raise. -/
inductive PyErr
  | valueError (msg : String)
  | fileNotFoundError (path : String)
  deriving DecidableEq

/-- `encode_image_to_data_uri` (`core/utils.py` lines 6-13): `open()` raises
`FileNotFoundError` when the file is missing — there is no existence guard.
Base64-encoding of the bytes is abstracted as the raw content string. -/
def encode_image_to_data_uri (fs : FS) (image_path : String) :
    Except PyErr String :=
  match fs.readFile image_path with
  | none => .error (.fileNotFoundError image_path)
  | some content => .ok ("data:image/png;base64," ++ content)

/-- `read_json_file` (`core/utils.py` lines 16-22): raises on a missing file;
the JSON parse/re-serialization round trip is abstracted as the file content. -/
def read_json_file (fs : FS) (json_path : String) : Except PyErr String :=
  match fs.readFile json_path with
  | none => .error (.fileNotFoundError json_path)
  | some content => .ok content

/-- `read_text_file` (`core/utils.py` lines 25-31): raises on a missing file. -/
def read_text_file (fs : FS) (text_path : String) : Except PyErr String :=
  match fs.readFile text_path with
  | none => .error (.fileNotFoundError text_path)
  | some content => .ok content

/-- Value of a read known (by an existence guard) to succeed. -/
def okOr (r : Except PyErr String) (d : String) : String :=
  match r with
  | .ok s => s
  | .error _ => d

def pageDir (base : String) (n : Nat) : String :=
  base ++ "/page_" ++ toString n

def pageImagePath (base : String) (n : Nat) : String :=
  pageDir base n ++ "/page_" ++ toString n ++ "_full.png"

def pageMetadataPath (base : String) (n : Nat) : String :=
  pageDir base n ++ "/metadata_page_" ++ toString n ++ ".json"

def pageTextPath (base : String) (n : Nat) : String :=
  pageDir base n ++ "/text/page_" ++ toString n ++ "_text.txt"

/-- `PageData` dataclass. -/
structure PageData where
  page_number : Nat
  image_path : String
  image_data_uri : String
  metadata_path : String
  metadata_content : String
  text_path : String
  text_content : String
  deriving DecidableEq

/-- `PageContext` dataclass. -/
structure PageContext where
  previous_page : Option PageData
  current_page : PageData
  next_page : Option PageData
  deriving DecidableEq

/-- The page-loading block that `get_page_context` repeats for the current,
previous and next pages: the image read is unguarded (so a missing image file
raises), while the metadata and text reads are guarded by `.exists()` and
degrade to `"\x7b\x7d"` and `""` respectively. -/
def loadPageData (fs : FS) (base : String) (n : Nat) : Except PyErr PageData := do
  let uri ← encode_image_to_data_uri fs (pageImagePath base n)
  .ok {
    page_number := n
    image_path := pageImagePath base n
    image_data_uri := uri
    metadata_path := pageMetadataPath base n
    metadata_content :=
      if fs.fileExists (pageMetadataPath base n) then
        okOr (read_json_file fs (pageMetadataPath base n)) ""
      else "\x7b\x7d"
    text_path := pageTextPath base n
    text_content :=
      if fs.fileExists (pageTextPath base n) then
        okOr (read_text_file fs (pageTextPath base n)) ""
      else "" }

/-- `get_page_context` (source lines 38-130). Python page numbers below 1 all
hit the initial `ValueError` guard, so the domain is taken as `Nat`. -/
def get_page_context (fs : FS) (base : String) (page_number : Nat) :
    Except PyErr PageContext := do
  if page_number < 1 then
    .error (.valueError "Page number must be at least 1")
  else do
    if !fs.dirExists (pageDir base page_number) then
      .error (.fileNotFoundError
        ("Page " ++ toString page_number ++ " directory not found at "
          ++ pageDir base page_number))
    else do
      let current ← loadPageData fs base page_number
      let previous ←
        if page_number > 1 then
          if fs.dirExists (pageDir base (page_number - 1)) then do
            let p ← loadPageData fs base (page_number - 1)
            pure (some p)
          else pure none
        else pure (none : Option PageData)
      let next ←
        if fs.dirExists (pageDir base (page_number + 1)) then do
          let p ← loadPageData fs base (page_number + 1)
          pure (some p)
        else pure (none : Option PageData)
      .ok { previous_page := previous, current_page := current, next_page := next }

/-! ### Orchestrator
`pipeline/processor.py`, `PDFProcessor.run` (lines 32-108). The step-function
bodies are external to the orchestrator; each registered step is identified by
a tag, and the run is parameterised by an implementation map from tags to
outcomes (`.ok result` or `.error message` for a raised exception, carrying
`str(e)`). -/

/-- The six step functions exported by `pipeline/steps/__init__.py`. -/
inductive StepTag
  | ocrStep
  | contextStep
  | enhanceStep
  | tableStep
  | improveTableStep
  | imageStep
  deriving DecidableEq

/-- The `all_steps` registry in `PDFProcessor.run` (processor.py lines 52-57):
name, title, step function. Only four of the six exported step functions are
registered. -/
def all_steps : List (String × String × StepTag) :=
  [("ocr", "OCR Extraction", .ocrStep),
   ("context", "Context Metadata", .contextStep),
   ("enhance", "Enhance Metadata", .enhanceStep),
   ("table", "Table Metadata", .tableStep)]

/-- `list(all_steps.keys())`. -/
def validStepNames : List String := all_steps.map (fun p => p.1)

/-- `step_name in all_steps`. -/
def isValidStep (s : String) : Bool := all_steps.any (fun p => p.1 = s)

/-- `all_steps[step_name]`, the registered step function. -/
def lookupStep (s : String) : Option StepTag :=
  (all_steps.find? (fun p => p.1 = s)).map (fun p => p.2.2)

/-- A step's result dictionary: its `status`, optional `error` message, and
the remaining numeric metrics. -/
structure StepResult where
  status : String
  error : Option String := none
  metrics : List (String × Nat) := []
  deriving DecidableEq

/-- The error `PDFProcessor.run` raises before executing anything. -/
inductive RunError
  | invalidSteps (invalid : List String) (valid : List String)
  deriving DecidableEq

/-- Result recorded for one step of the loop: the step's return value, or
`{"status": "error", "error": str(e)}` when the step function raised.
The `none` branch is unreachable: every executed name was validated against
`all_steps` (or taken from its keys). -/
def runOneStep (impl : StepTag → Except String StepResult) (step_name : String) :
    StepResult :=
  match lookupStep step_name with
  | none => { status := "error", error := some "KeyError" }
  | some tag =>
    match impl tag with
    | .ok r => r
    | .error e => { status := "error", error := some e }

/-- The `for step_name in steps_to_run` loop: builds `self.results`
(a dict keyed by step name) and the ordered trace of executed steps. -/
def execStepsGo (impl : StepTag → Except String StepResult) :
    List String → List (String × StepResult) → List String →
    List (String × StepResult) × List String
  | [], results, trace => (results, trace)
  | step_name :: rest, results, trace =>
    execStepsGo impl rest (dictInsert results step_name (runOneStep impl step_name))
      (trace ++ [step_name])

def execSteps (impl : StepTag → Except String StepResult) (names : List String) :
    List (String × StepResult) × List String :=
  execStepsGo impl names [] []

/-- `PDFProcessor.run` (lines 32-108): selects the step list (all registered
steps when `steps is None`, otherwise the validated request), then executes
each step sequentially, recording per-step results; an exception from a step
is caught and recorded, never propagated. Returns the results dict and the
execution trace. -/
def PDFProcessor.run (impl : StepTag → Except String StepResult)
    (steps : Option (List String)) :
    Except RunError (List (String × StepResult) × List String) :=
  match steps with
  | none => .ok (execSteps impl validStepNames)
  | some names =>
    let invalid_steps := names.filter (fun s => !isValidStep s)
    if invalid_steps.isEmpty then .ok (execSteps impl names)
    else .error (.invalidSteps invalid_steps validStepNames)

/-! ### Context-generation step
`pipeline/steps/context_step.py`, `run_context_step` (lines 16-113). The
filesystem facts the step consults are: whether the OCR output root exists,
and per page whether its context-metadata file exists; the external
per-page processing (`extract_and_save_context_metadata`) is a parameter. -/

/-- The configuration fields `run_context_step` reads. -/
structure CtxStepConfig where
  baseExists : Bool
  total_pages : Nat
  max_pages : Option Nat
  skip_metadata_if_exists : Bool
  deriving DecidableEq

/-- The three result dictionaries `run_context_step` can return. -/
inductive CtxStepResult
  | stepError (error : String)
  | stepSkipped (message : String) (pages_processed : Nat)
  | stepSuccess (pages_processed pages_failed pages_skipped total_pages : Nat)
  deriving DecidableEq

/-- The `status` value of a context-step result dictionary. -/
def CtxStepResult.status : CtxStepResult → String
  | .stepError _ => "error"
  | .stepSkipped _ _ => "skipped"
  | .stepSuccess _ _ _ _ => "success"

/-- `run_context_step`: returns the result dictionary together with the list
of pages handed to the external service (empty = no external call, nothing
written). `hasCtx p` models `context_metadata_path.exists()` for page `p`;
`proc p` models `extract_and_save_context_metadata` on page `p` (`.error` =
raised). -/
def run_context_step (cfg : CtxStepConfig) (hasCtx : Nat → Bool)
    (proc : Nat → Except String Unit) : CtxStepResult × List Nat :=
  if !cfg.baseExists then
    (.stepError "OCR output not found. Run OCR step first.", [])
  else
    let pages_to_check :=
      match cfg.max_pages with
      | some m => min m cfg.total_pages
      | none => cfg.total_pages
    let pageRange := List.range' 1 pages_to_check
    let pages_with_metadata :=
      (pageRange.filter (fun p => hasCtx p && cfg.skip_metadata_if_exists)).length
    let pages_to_process :=
      pageRange.filter (fun p => !(hasCtx p && cfg.skip_metadata_if_exists))
    if pages_to_process.isEmpty then
      (.stepSkipped "All pages already have context metadata" cfg.total_pages, [])
    else
      let successful :=
        (pages_to_process.filter (fun p => (proc p).toBool)).length
      let failed :=
        (pages_to_process.filter (fun p => !(proc p).toBool)).length
      (.stepSuccess successful failed pages_with_metadata cfg.total_pages,
        pages_to_process)

/-! ### Cost ledger
`core/llm/litellm_client.py`: `CostTracker` (lines 14-85) and
`LitellmClient.chat` (lines 160-229). Python float costs are modelled as
exact rationals; `litellm.completion_cost` may raise, modelled by an
`Option ℚ` result (`none` = raised). -/

/-- The `usage` sub-dictionary of a completion response, read via `.get`. -/
structure Usage where
  prompt_tokens : Option Nat := none
  completion_tokens : Option Nat := none
  total_tokens : Option Nat := none
  deriving DecidableEq

/-- One entry of `cost_breakdown`. -/
structure BreakdownEntry where
  call_type : String
  model : String
  cost : ℚ
  prompt_tokens : Nat
  completion_tokens : Nat
  total_tokens : Nat
  deriving DecidableEq

/-- The `CostTracker` accumulator; `__init__` zero-initialises every field. -/
structure CostTracker where
  total_cost : ℚ := 0
  total_prompt_tokens : Nat := 0
  total_completion_tokens : Nat := 0
  total_tokens : Nat := 0
  call_count : Nat := 0
  cost_breakdown : List BreakdownEntry := []
  deriving DecidableEq

/-- `CostTracker.add_call` (lines 25-65): the whole body sits in a
`try/except`, so a raised `completion_cost` (the `none` case) leaves the
tracker unchanged; otherwise the totals and the breakdown are appended. -/
def CostTracker.add_call (t : CostTracker) (costResult : Option ℚ)
    (usage : Usage) (model_name call_type : String) : CostTracker :=
  match costResult with
  | none => t
  | some cost =>
    let prompt_tokens := usage.prompt_tokens.getD 0
    let completion_tokens := usage.completion_tokens.getD 0
    let total_tokens := usage.total_tokens.getD 0
    { total_cost := t.total_cost + cost
      total_prompt_tokens := t.total_prompt_tokens + prompt_tokens
      total_completion_tokens := t.total_completion_tokens + completion_tokens
      total_tokens := t.total_tokens + total_tokens
      call_count := t.call_count + 1
      cost_breakdown := t.cost_breakdown ++
        [⟨call_type, model_name, cost, prompt_tokens, completion_tokens,
          total_tokens⟩] }

/-- `CostTracker.reset` (lines 78-85): zero every field. -/
def CostTracker.reset (_t : CostTracker) : CostTracker :=
  { total_cost := 0
    total_prompt_tokens := 0
    total_completion_tokens := 0
    total_tokens := 0
    call_count := 0
    cost_breakdown := [] }

/-- A completion response: content plus usage. -/
structure ChatResponse where
  content : String
  usage : Usage
  deriving DecidableEq

/-- The state of a `LitellmClient` that `chat` reads or writes. -/
structure LitellmClient where
  model_name : Option String
  cost_tracker : CostTracker
  deriving DecidableEq

/-- `LitellmClient.chat` (lines 160-229): resolve the model name (raising
`LitellmConfigError` when absent everywhere), call `litellm.completion`
(`completionResult`; an exception is re-raised), then record the call on the
tracker and return the response with the updated client. `costOf` models
`litellm.completion_cost` inside `add_call`. -/
def LitellmClient.chat (client : LitellmClient)
    (completionResult : Except String ChatResponse)
    (costOf : ChatResponse → Option ℚ) (model_name : Option String)
    (call_type : String) : Except String (ChatResponse × LitellmClient) :=
  let chosen_model :=
    match model_name with
    | some m => some m
    | none => client.model_name
  match chosen_model with
  | none => .error "No model_name specified. Either pass it to __init__ or to chat()."
  | some chosen =>
    match completionResult with
    | .error ex => .error ex
    | .ok response =>
      .ok (response,
        { client with
          cost_tracker := client.cost_tracker.add_call (costOf response)
            response.usage chosen call_type })

/-! ### Concrete instances used by witnesses and counterexamples -/

/-- The element of the C5 counterexample: a figure element carrying a
non-empty `image_type` before the merge. -/
def c5elem : ContentElement :=
  { type := some "figure", element_id := some "figure-1-1",
    image_type := some "photo" }

/-- The context of the C5 counterexample: the matched image-metadata record
supplies no `image_type` (so the copied value is the empty default `""`). -/
def c5ctx : ContextMetadata :=
  { image_metadata := some [{ image_id := some "image-1-1" }],
    content_elements := some [c5elem] }

/-- The matched record of the C1 witness (the spec's §8 example). -/
def c1meta : ImgMeta :=
  { image_id := some "image-12-2", keywords := some ["b", "c"],
    entities := some ["E2"] }

/-- The figure element of the C1 witness. -/
def c1elem : ContentElement :=
  { type := some "figure", element_id := some "figure-12-2",
    keywords := some ["a", "b"], entities := some ["E1"] }

/-- The context of the C1 witness. -/
def c1ctx : ContextMetadata :=
  { image_metadata := some [c1meta], content_elements := some [c1elem] }

/-- The step implementation of the C3 witness: the context step raises. -/
def c3impl : StepTag → Except String StepResult :=
  fun tag =>
    match tag with
    | .contextStep => .error "boom"
    | _ => .ok { status := "success" }

/-- Modelled from the spec: the six stages of §4.3 in dependency order —
extraction (`ocr`), table-structure correction (`improve_table`), context
generation (`context`), flag enhancement (`enhance`), table semantic metadata
(`table`), image semantic metadata (`image`) — as the step functions the
orchestrator would have to execute for the C6 claim to hold. -/
def specStageOrder : List StepTag :=
  [.ocrStep, .improveTableStep, .contextStep, .enhanceStep, .tableStep,
    .imageStep]

/-- The all-successful step implementation of the C6 counterexample. -/
def c6impl : StepTag → Except String StepResult :=
  fun _ => .ok { status := "success" }

/-- The step implementation of the C7 witness (never reached). -/
def c7impl : StepTag → Except String StepResult :=
  fun _ => .ok { status := "success" }

/-- The client of the C9 counterexample: freshly initialised tracker. -/
def c9client : LitellmClient :=
  { model_name := some "openai/gpt-4o", cost_tracker := {} }

/-- The successful completion response of the C9 counterexample. -/
def c9resp : ChatResponse :=
  { content := "ok",
    usage :=
      { prompt_tokens := some 10, completion_tokens := some 5,
        total_tokens := some 15 } }

/-- The page snapshot produced for a page whose image file is present: the
metadata and text sub-reads degrade independently to `"\x7b\x7d"` and `""`
when their files are missing. -/
def degradedPageData (fs : FS) (base : String) (n : Nat) : PageData :=
  { page_number := n
    image_path := pageImagePath base n
    image_data_uri :=
      "data:image/png;base64," ++ (fs.readFile (pageImagePath base n)).getD ""
    metadata_path := pageMetadataPath base n
    metadata_content :=
      if fs.fileExists (pageMetadataPath base n) then
        (fs.readFile (pageMetadataPath base n)).getD ""
      else "\x7b\x7d"
    text_path := pageTextPath base n
    text_content :=
      if fs.fileExists (pageTextPath base n) then
        (fs.readFile (pageTextPath base n)).getD ""
      else "" }

/-- The filesystem of the C2 counterexample: the current page's directory
exists but none of its files do. -/
def c2fs : FS := { dirs := ["doc/page_1"], files := [] }

/-! ## Helper lemmas -/

theorem find?_map_replace_self {α : Type} (m : List (String × α)) (k : String)
    (v : α) (h : m.any (fun p => p.1 = k) = true) :
    (m.map (fun p => if p.1 = k then (k, v) else p)).find?
      (fun p => p.1 = k) = some (k, v) := by
  induction m with
  | nil => simp at h
  | cons p rest ih =>
    simp only [List.map_cons]
    by_cases hp : p.1 = k
    · rw [if_pos hp]
      exact List.find?_cons_of_pos _ (by simp)
    · rw [if_neg hp, List.find?_cons_of_neg _ (by simp [hp])]
      apply ih
      simp only [List.any_cons, Bool.or_eq_true] at h
      rcases h with h1 | h2
      · exact absurd (by simpa using h1) hp
      · exact h2

theorem find?_map_replace_ne {α : Type} (m : List (String × α)) (k k2 : String)
    (v : α) (hne : k ≠ k2) :
    (m.map (fun p => if p.1 = k2 then (k2, v) else p)).find?
      (fun p => p.1 = k) = m.find? (fun p => p.1 = k) := by
  induction m with
  | nil => rfl
  | cons p rest ih =>
    simp only [List.map_cons]
    by_cases hp : p.1 = k2
    · rw [if_pos hp,
        List.find?_cons_of_neg _ (by simp [Ne.symm hne]),
        List.find?_cons_of_neg _ (by simp [hp, Ne.symm hne])]
      exact ih
    · rw [if_neg hp]
      by_cases hpk : p.1 = k
      · rw [List.find?_cons_of_pos _ (by simp [hpk]),
          List.find?_cons_of_pos _ (by simp [hpk])]
      · rw [List.find?_cons_of_neg _ (by simp [hpk]),
          List.find?_cons_of_neg _ (by simp [hpk])]
        exact ih

theorem find?_append_single_self {α : Type} (m : List (String × α)) (k : String)
    (v : α) (h : m.any (fun p => p.1 = k) = false) :
    (m ++ [(k, v)]).find? (fun p => p.1 = k) = some (k, v) := by
  induction m with
  | nil => exact List.find?_cons_of_pos _ (by simp)
  | cons p rest ih =>
    simp only [List.any_cons, Bool.or_eq_false_iff] at h
    have hp : ¬ p.1 = k := by simpa using h.1
    simp only [List.cons_append]
    rw [List.find?_cons_of_neg _ (by simp [hp])]
    exact ih h.2

theorem find?_append_single_ne {α : Type} (m : List (String × α))
    (k k2 : String) (v : α) (hne : k ≠ k2) :
    (m ++ [(k2, v)]).find? (fun p => p.1 = k) = m.find? (fun p => p.1 = k) := by
  induction m with
  | nil =>
    simp only [List.nil_append, List.find?_nil]
    rw [List.find?_cons_of_neg _ (by simp [Ne.symm hne])]
    rfl
  | cons p rest ih =>
    simp only [List.cons_append]
    by_cases hpk : p.1 = k
    · rw [List.find?_cons_of_pos _ (by simp [hpk]),
        List.find?_cons_of_pos _ (by simp [hpk])]
    · rw [List.find?_cons_of_neg _ (by simp [hpk]),
        List.find?_cons_of_neg _ (by simp [hpk])]
      exact ih

theorem dictLookup_insert_self {α : Type} (m : List (String × α)) (k : String)
    (v : α) : dictLookup (dictInsert m k v) k = some v := by
  unfold dictInsert dictLookup
  by_cases h : m.any (fun p => p.1 = k)
  · rw [if_pos h, find?_map_replace_self m k v h]
    rfl
  · rw [if_neg h, find?_append_single_self m k v (Bool.eq_false_iff.2 h)]
    rfl

theorem dictLookup_insert_ne {α : Type} (m : List (String × α)) (k k2 : String)
    (v : α) (hne : k ≠ k2) :
    dictLookup (dictInsert m k2 v) k = dictLookup m k := by
  unfold dictInsert dictLookup
  by_cases h : m.any (fun p => p.1 = k2)
  · rw [if_pos h, find?_map_replace_ne m k k2 v hne]
  · rw [if_neg h, find?_append_single_ne m k k2 v hne]

theorem dictContains_iff_lookup {α : Type} (m : List (String × α)) (k : String) :
    dictContains m k = true ↔ ∃ v, dictLookup m k = some v := by
  induction m with
  | nil => simp [dictContains, dictLookup]
  | cons p rest ih =>
    by_cases hp : p.1 = k
    · simp [dictContains, dictLookup, List.find?, hp]
    · simpa [dictContains, dictLookup, List.find?, hp] using ih

theorem dictContains_insert {α : Type} (m : List (String × α)) (k k2 : String)
    (v : α) (h : dictContains m k = true) :
    dictContains (dictInsert m k2 v) k = true := by
  by_cases hk : k = k2
  · subst hk
    exact (dictContains_iff_lookup _ _).2 ⟨v, dictLookup_insert_self m k v⟩
  · rcases (dictContains_iff_lookup m k).1 h with ⟨w, hw⟩
    exact (dictContains_iff_lookup _ _).2
      ⟨w, by rw [dictLookup_insert_ne m k k2 v hk]; exact hw⟩

theorem dictContains_insert_self {α : Type} (m : List (String × α))
    (k : String) (v : α) : dictContains (dictInsert m k v) k = true :=
  (dictContains_iff_lookup _ _).2 ⟨v, dictLookup_insert_self m k v⟩

/-- Every record of the list is reachable in the built map under its
`image_id` key. -/
theorem buildImageMetadataMap_contains (metas : List ImgMeta) (mi : ImgMeta)
    (h : mi ∈ metas) :
    dictContains (buildImageMetadataMap metas) (mi.image_id.getD "") = true := by
  unfold buildImageMetadataMap
  have main : ∀ (l : List ImgMeta) (acc : List (String × ImgMeta)),
      (mi ∈ l ∨ dictContains acc (mi.image_id.getD "") = true) →
      dictContains
        (l.foldl (fun m meta => dictInsert m (meta.image_id.getD "") meta) acc)
        (mi.image_id.getD "") = true := by
    intro l
    induction l with
    | nil =>
      intro acc hacc
      rcases hacc with hmem | hc
      · simp at hmem
      · simpa using hc
    | cons x xs ih =>
      intro acc hacc
      simp only [List.foldl_cons]
      rcases hacc with hmem | hc
      · rcases List.mem_cons.1 hmem with hx | hxs
        · subst hx
          exact ih _ (Or.inr (dictContains_insert_self _ _ _))
        · exact ih _ (Or.inl hxs)
      · exact ih _ (Or.inr (dictContains_insert _ _ _ _ hc))
  exact main metas [] (Or.inl h)

set_option maxHeartbeats 2000000 in
/-- Explicit shape of the element enhancement: `image_type` and
`natural_description` are written unconditionally (defaulting to `""`),
`keywords`/`entities` are union-merged, and every remaining field is
overridden only when the matched record's value is truthy. -/
theorem enhanceElementWith_eq (m : ImgMeta) (e : ContentElement) :
    enhanceElementWith m e =
      { type := e.type
        element_id := e.element_id
        image_type := some (m.image_type.getD "")
        natural_description := some (m.natural_description.getD "")
        title := if strTruthy m.title then m.title else e.title
        summary := if strTruthy m.summary then m.summary else e.summary
        keywords := some (setUnionList (e.keywords.getD []) (m.keywords.getD []))
        entities := some (setUnionList (e.entities.getD []) (m.entities.getD []))
        dates := if listTruthy m.dates then m.dates else e.dates
        locations := if listTruthy m.locations then m.locations else e.locations
        model_name := if strTruthy m.model_name then m.model_name else e.model_name
        component_type :=
          if strTruthy m.component_type then m.component_type else e.component_type
        model_applicability :=
          if listTruthy m.model_applicability then m.model_applicability
          else e.model_applicability
        application_context :=
          if listTruthy m.application_context then m.application_context
          else e.application_context
        related_tables :=
          if listTruthy m.related_tables then m.related_tables
          else e.related_tables } := by
  cases h1 : strTruthy m.title <;>
    cases h2 : strTruthy m.summary <;>
      cases h3 : listTruthy m.dates <;>
        cases h4 : listTruthy m.locations <;>
          cases h5 : strTruthy m.model_name <;>
            cases h6 : strTruthy m.component_type <;>
              cases h7 : listTruthy m.model_applicability <;>
                cases h8 : listTruthy m.application_context <;>
                  cases h9 : listTruthy m.related_tables <;>
                    simp only [enhanceElementWith, h1, h2, h3, h4, h5, h6, h7,
                      h8, h9, Bool.false_eq_true, if_true, if_false,
                      eq_self_iff_true, ite_true, ite_false]

/-- The keywords written by the element enhancement: always the union-merge of
the element's prior keywords and the matched record's keywords. -/
theorem enhanceElementWith_keywords (m : ImgMeta) (e : ContentElement) :
    (enhanceElementWith m e).keywords
      = some (setUnionList (e.keywords.getD []) (m.keywords.getD [])) := by
  rw [enhanceElementWith_eq]

/-- The entities written by the element enhancement: always the union-merge of
the element's prior entities and the matched record's entities. -/
theorem enhanceElementWith_entities (m : ImgMeta) (e : ContentElement) :
    (enhanceElementWith m e).entities
      = some (setUnionList (e.entities.getD []) (m.entities.getD [])) := by
  rw [enhanceElementWith_eq]

theorem setUnionList_toFinset (a b : List String) :
    (setUnionList a b).toFinset = a.toFinset ∪ b.toFinset := by
  apply Finset.ext
  intro x
  simp [setUnionList, List.mem_dedup]

theorem setUnionList_nodup (a b : List String) : (setUnionList a b).Nodup :=
  List.nodup_dedup _

/-! ## Claims -/

/-- C10: when `image_metadata` is absent or empty, or `content_elements` is
absent, `enhance_content_elements_with_image_metadata` returns the context
metadata unchanged. -/
theorem c10_guard_identity (ctx : ContextMetadata)
    (h : ctx.image_metadata = none ∨ ctx.image_metadata = some [] ∨
      ctx.content_elements = none) :
    enhance_content_elements_with_image_metadata ctx = ctx := by
  unfold enhance_content_elements_with_image_metadata
  rcases h with h | h | h
  · rw [h]
  · rw [h]
  · cases him : ctx.image_metadata with
    | none => rfl
    | some l =>
      cases l with
      | nil => rfl
      | cons meta metas => rw [h]

theorem c10_guard_identity_witness :
    enhance_content_elements_with_image_metadata
        { image_metadata := none,
          content_elements := some [{ type := some "figure" }] }
      = { image_metadata := none,
          content_elements := some [{ type := some "figure" }] } :=
  c10_guard_identity _ (Or.inl rfl)

/-- C4: flag enhancement writes exactly the three boolean flags, the three
counts and the `content_summary` echo computed from the structural record's id
lists, leaves every other pre-existing field (`rest`) unchanged, and in
particular sets `has_tables = true` and `table_count = len(tables)` whenever
`tables` is non-empty. -/
theorem c4_flag_enhancement (ctx : CtxRecord) (basic : BasicMetadata) :
    (enhance_context_metadata ctx basic).has_tables
        = some (decide ((basic.tables.getD []).length > 0))
    ∧ (enhance_context_metadata ctx basic).has_figures
        = some (decide ((basic.figures.getD []).length > 0))
    ∧ (enhance_context_metadata ctx basic).has_text_blocks
        = some (decide ((basic.text_blocks.getD []).length > 0))
    ∧ (enhance_context_metadata ctx basic).table_count
        = some (basic.tables.getD []).length
    ∧ (enhance_context_metadata ctx basic).figure_count
        = some (basic.figures.getD []).length
    ∧ (enhance_context_metadata ctx basic).text_block_count
        = some (basic.text_blocks.getD []).length
    ∧ (enhance_context_metadata ctx basic).content_summary
        = some ⟨basic.tables.getD [], basic.figures.getD [],
            basic.text_blocks.getD []⟩
    ∧ (enhance_context_metadata ctx basic).rest = ctx.rest
    ∧ (basic.tables.getD [] ≠ [] →
        (enhance_context_metadata ctx basic).has_tables = some true
        ∧ (enhance_context_metadata ctx basic).table_count
            = some (basic.tables.getD []).length) := by
  refine ⟨rfl, rfl, rfl, rfl, rfl, rfl, rfl, rfl, fun h => ⟨?_, rfl⟩⟩
  have hp : (basic.tables.getD []).length > 0 := List.length_pos.2 h
  simp [enhance_context_metadata, hp]

theorem c4_flag_enhancement_witness :
    (enhance_context_metadata {} { tables := some ["table-1-1"] }).has_tables
        = some true
    ∧ (enhance_context_metadata {} { tables := some ["table-1-1"] }).table_count
        = some 1 :=
  (c4_flag_enhancement {} { tables := some ["table-1-1"] }).2.2.2.2.2.2.2.2
    (by decide)

/-- C5 counterexample: the element's non-empty `image_type` (`"photo"`) is
overwritten with the empty string copied from the matched record, refuting
"a non-empty field is never replaced by an empty one" for the copied field
set, which includes `image_type`. -/
theorem c5_counterexample :
    c5elem.image_type = some "photo"
    ∧ ((enhance_content_elements_with_image_metadata c5ctx).content_elements.getD
        []).map ContentElement.image_type = [some ""] := by decide

/-- C5 amended: the preserve-on-empty policy holds for `title`, `summary`,
`dates`, `locations`, `model_name`, `component_type`, `model_applicability`,
`application_context` and `related_tables` (each copied only when the matched
record's value is truthy), but `image_type` and `natural_description` are
copied unconditionally, overwriting the element's value with `""` when the
record's value is absent or empty. -/
theorem c5_merge_overwrite_policy (m : ImgMeta) (e : ContentElement) :
    (enhanceElementWith m e).image_type = some (m.image_type.getD "")
    ∧ (enhanceElementWith m e).natural_description
        = some (m.natural_description.getD "")
    ∧ (strTruthy m.title = false → (enhanceElementWith m e).title = e.title)
    ∧ (strTruthy m.title = true → (enhanceElementWith m e).title = m.title)
    ∧ (strTruthy m.summary = false → (enhanceElementWith m e).summary = e.summary)
    ∧ (strTruthy m.summary = true → (enhanceElementWith m e).summary = m.summary)
    ∧ (listTruthy m.dates = false → (enhanceElementWith m e).dates = e.dates)
    ∧ (listTruthy m.locations = false →
        (enhanceElementWith m e).locations = e.locations)
    ∧ (strTruthy m.model_name = false →
        (enhanceElementWith m e).model_name = e.model_name)
    ∧ (strTruthy m.component_type = false →
        (enhanceElementWith m e).component_type = e.component_type)
    ∧ (listTruthy m.model_applicability = false →
        (enhanceElementWith m e).model_applicability = e.model_applicability)
    ∧ (listTruthy m.application_context = false →
        (enhanceElementWith m e).application_context = e.application_context)
    ∧ (listTruthy m.related_tables = false →
        (enhanceElementWith m e).related_tables = e.related_tables) := by
  rw [enhanceElementWith_eq]
  refine ⟨rfl, rfl, ?_, ?_, ?_, ?_, ?_, ?_, ?_, ?_, ?_, ?_, ?_⟩ <;>
    (intro h; simp [h])

theorem c5_merge_overwrite_policy_witness :
    (enhanceElementWith { image_id := some "image-1-1" } c5elem).title
      = c5elem.title :=
  (c5_merge_overwrite_policy { image_id := some "image-1-1" } c5elem).2.2.1
    (by decide)

/-- C1: sub-element correlation. With a non-empty `image_metadata` list and a
`content_elements` list present, the merge maps each element independently;
for every figure element whose `element_id` matches the pattern: (a) a record
listed under either the `image-` or the `figure-` spelling of the id is found;
(b) when the `image-` spelling is in the lookup it is the one matched;
(c) a matched element's keywords (and entities) become the duplicate-free set
union of its prior list and the matched record's list; (d) an element with no
matching record is left unchanged. -/
theorem c1_sub_element_correlation (ctx : ContextMetadata)
    (metas : List ImgMeta) (elems : List ContentElement)
    (him : ctx.image_metadata = some metas) (hne : metas ≠ [])
    (hel : ctx.content_elements = some elems) :
    (enhance_content_elements_with_image_metadata ctx).content_elements
        = some (elems.map (enhanceOneElement (buildImageMetadataMap metas)))
    ∧ ∀ e ∈ elems, e.type = some "figure" →
        ∀ page idx, parseFigureId (e.element_id.getD "") = some (page, idx) →
          ((∃ mi ∈ metas,
              mi.image_id = some ("image-" ++ page ++ "-" ++ idx)
                ∨ mi.image_id = some ("figure-" ++ page ++ "-" ++ idx)) →
            findMatchedImageMeta (buildImageMetadataMap metas) page idx ≠ none)
          ∧ (∀ mi, dictLookup (buildImageMetadataMap metas)
                ("image-" ++ page ++ "-" ++ idx) = some mi →
              findMatchedImageMeta (buildImageMetadataMap metas) page idx
                = some mi)
          ∧ (∀ mi, findMatchedImageMeta (buildImageMetadataMap metas) page idx
                = some mi →
              ((enhanceOneElement (buildImageMetadataMap metas) e).keywords.getD
                    []).toFinset
                  = (e.keywords.getD []).toFinset
                      ∪ (mi.keywords.getD []).toFinset
              ∧ ((enhanceOneElement (buildImageMetadataMap metas)
                    e).keywords.getD []).Nodup
              ∧ ((enhanceOneElement (buildImageMetadataMap metas)
                    e).entities.getD []).toFinset
                  = (e.entities.getD []).toFinset
                      ∪ (mi.entities.getD []).toFinset
              ∧ ((enhanceOneElement (buildImageMetadataMap metas)
                    e).entities.getD []).Nodup)
          ∧ (findMatchedImageMeta (buildImageMetadataMap metas) page idx = none →
              enhanceOneElement (buildImageMetadataMap metas) e = e) := by
  constructor
  · rcases metas with _ | ⟨meta, rest⟩
    · exact absurd rfl hne
    · unfold enhance_content_elements_with_image_metadata
      rw [him, hel]
  · intro e he htype page idx hparse
    refine ⟨?_, ?_, ?_, ?_⟩
    · rintro ⟨mi, hmi, hid | hid⟩ <;>
        · have hc := buildImageMetadataMap_contains metas mi hmi
          rw [hid] at hc
          simp only [Option.getD_some] at hc
          rcases (dictContains_iff_lookup _ _).1 hc with ⟨v, hv⟩
          unfold findMatchedImageMeta
          cases himg : dictLookup (buildImageMetadataMap metas)
              ("image-" ++ page ++ "-" ++ idx) with
          | some w => simp
          | none => simp_all
    · intro mi hmi2
      unfold findMatchedImageMeta
      rw [hmi2]
    · intro mi hmatch
      have he2 : enhanceOneElement (buildImageMetadataMap metas) e
          = enhanceElementWith mi e := by
        simp [enhanceOneElement, htype, hparse, hmatch]
      rw [he2, enhanceElementWith_keywords, enhanceElementWith_entities]
      simp only [Option.getD_some]
      exact ⟨setUnionList_toFinset _ _, setUnionList_nodup _ _,
        setUnionList_toFinset _ _, setUnionList_nodup _ _⟩
    · intro hnone
      simp [enhanceOneElement, htype, hparse, hnone]

theorem c1_sub_element_correlation_witness :
    ((enhanceOneElement (buildImageMetadataMap [c1meta]) c1elem).keywords.getD
        []).toFinset
      = (["a", "b"] : List String).toFinset ∪ (["b", "c"] : List String).toFinset
    ∧ ((enhanceOneElement (buildImageMetadataMap [c1meta]) c1elem).keywords.getD
        []).length = 3 := by
  have h := c1_sub_element_correlation c1ctx [c1meta] [c1elem] rfl
    (by decide) rfl
  have h2 := ((h.2 c1elem (by simp) (by decide) "12" "2" (by decide)).2.2.1
    c1meta (by decide)).1
  exact ⟨h2, by decide⟩

/-- The execution trace accumulates exactly the selected step names, in
order, whatever the step outcomes are. -/
theorem execStepsGo_trace (impl : StepTag → Except String StepResult)
    (names : List String) (res : List (String × StepResult))
    (tr : List String) : (execStepsGo impl names res tr).2 = tr ++ names := by
  induction names generalizing res tr with
  | nil => simp [execStepsGo]
  | cons n rest ih =>
    rw [execStepsGo, ih]
    simp

theorem execStepsGo_lookup_of_not_mem (impl : StepTag → Except String StepResult)
    (names : List String) (res : List (String × StepResult)) (tr : List String)
    (s : String) (h : s ∉ names) :
    dictLookup (execStepsGo impl names res tr).1 s = dictLookup res s := by
  induction names generalizing res tr with
  | nil => rfl
  | cons n rest ih =>
    have hne : s ≠ n := fun he => h (by rw [he]; exact List.mem_cons_self n rest)
    rw [execStepsGo, ih _ _ (fun hs => h (List.mem_cons_of_mem n hs)),
      dictLookup_insert_ne _ _ _ _ hne]

/-- Every selected step's recorded result is the outcome of running it. -/
theorem execStepsGo_lookup_of_mem (impl : StepTag → Except String StepResult)
    (names : List String) (res : List (String × StepResult)) (tr : List String)
    (s : String) (h : s ∈ names) :
    dictLookup (execStepsGo impl names res tr).1 s
      = some (runOneStep impl s) := by
  induction names generalizing res tr with
  | nil => simp at h
  | cons n rest ih =>
    by_cases hs : s ∈ rest
    · rw [execStepsGo, ih _ _ hs]
    · have hn : s = n := by
        rcases List.mem_cons.1 h with h1 | h2
        · exact h1
        · exact absurd h2 hs
      subst hn
      rw [execStepsGo, execStepsGo_lookup_of_not_mem _ _ _ _ _ hs,
        dictLookup_insert_self]

/-- C3: orchestrator fault isolation. For any valid selected step list, run
returns normally; the trace shows that every selected step executed (in
order), including all steps after a raising one; and a step whose function
raised is recorded as `{"status": "error", "error": str(e)}`. -/
theorem c3_fault_isolation (impl : StepTag → Except String StepResult)
    (names : List String) (hvalid : ∀ s ∈ names, isValidStep s = true)
    (s : String) (hs : s ∈ names) (tag : StepTag)
    (htag : lookupStep s = some tag) (msg : String)
    (herr : impl tag = .error msg) :
    PDFProcessor.run impl (some names) = .ok (execSteps impl names)
    ∧ (execSteps impl names).2 = names
    ∧ dictLookup (execSteps impl names).1 s
        = some { status := "error", error := some msg } := by
  refine ⟨?_, ?_, ?_⟩
  · have hf : names.filter (fun s => !isValidStep s) = [] := by
      rw [List.filter_eq_nil_iff]
      intro a ha
      simp [hvalid a ha]
    simp [PDFProcessor.run, hf]
  · rw [execSteps, execStepsGo_trace]
    rfl
  · rw [execSteps, execStepsGo_lookup_of_mem _ _ _ _ _ hs]
    simp [runOneStep, htag, herr]

theorem c3_fault_isolation_witness :
    PDFProcessor.run c3impl (some ["ocr", "context", "table"])
        = .ok (execSteps c3impl ["ocr", "context", "table"])
    ∧ (execSteps c3impl ["ocr", "context", "table"]).2
        = ["ocr", "context", "table"]
    ∧ dictLookup (execSteps c3impl ["ocr", "context", "table"]).1 "context"
        = some { status := "error", error := some "boom" } :=
  c3_fault_isolation c3impl ["ocr", "context", "table"] (by decide)
    "context" (by decide) .contextStep (by decide) "boom" rfl

/-- C6 counterexample: with `steps = None` the orchestrator executes only the
four registered stages — the table-structure-correction and image-metadata
step functions are never executed, so the default run is not the six-stage
pipeline of §4.3. -/
theorem c6_counterexample :
    PDFProcessor.run c6impl none = .ok (execSteps c6impl validStepNames)
    ∧ (execSteps c6impl validStepNames).2.filterMap lookupStep
        = [.ocrStep, .contextStep, .enhanceStep, .tableStep]
    ∧ StepTag.improveTableStep
        ∉ (execSteps c6impl validStepNames).2.filterMap lookupStep
    ∧ StepTag.imageStep
        ∉ (execSteps c6impl validStepNames).2.filterMap lookupStep
    ∧ (execSteps c6impl validStepNames).2.filterMap lookupStep
        ≠ specStageOrder :=
  ⟨rfl, rfl, by decide, by decide, by decide⟩

/-- C6 amended: when `steps is None`, `PDFProcessor.run` executes exactly the
four registered stages, in registry order: `ocr` (extraction), `context`
(context generation), `enhance` (flag enhancement), `table` (table semantic
metadata); the table-structure-correction and image-metadata step functions
exist in the steps package but are not in the orchestrator's registry. -/
theorem c6_default_stages (impl : StepTag → Except String StepResult) :
    PDFProcessor.run impl none = .ok (execSteps impl validStepNames)
    ∧ (execSteps impl validStepNames).2 = ["ocr", "context", "enhance", "table"]
    ∧ (execSteps impl validStepNames).2.filterMap lookupStep
        = [.ocrStep, .contextStep, .enhanceStep, .tableStep] := by
  exact ⟨rfl, rfl, rfl⟩

/-- C7: unknown stage names fail fast. When the requested list contains
invalid names, run raises the validation error carrying exactly the invalid
entries and the valid stage set; the result does not depend on any step
function, so no stage ran and no result was recorded. -/
theorem c7_unknown_stage (impl : StepTag → Except String StepResult)
    (names : List String)
    (h : names.filter (fun s => !isValidStep s) ≠ []) :
    PDFProcessor.run impl (some names)
      = .error (.invalidSteps (names.filter (fun s => !isValidStep s))
          validStepNames) := by
  have he : (names.filter (fun s => !isValidStep s)).isEmpty = false := by
    rcases hl : names.filter (fun s => !isValidStep s) with _ | ⟨a, as⟩
    · exact absurd hl h
    · rfl
  simp [PDFProcessor.run, he]

theorem c7_unknown_stage_witness :
    PDFProcessor.run c7impl (some ["tabel"])
      = .error (.invalidSteps ["tabel"] ["ocr", "context", "enhance", "table"]) := by
  have h := c7_unknown_stage c7impl ["tabel"] (by decide)
  simpa using h

/-- C8: context-generation skip-if-exists. When the OCR output root exists,
skip-if-exists is enabled and every page already carries a context-metadata
record (as after a prior complete run), the step hands zero pages to the
external service (no call is made, nothing is written, whatever the external
behavior `proc` is) and returns the skipped result reporting all pages. -/
theorem c8_skip_if_exists (cfg : CtxStepConfig) (hasCtx : Nat → Bool)
    (proc : Nat → Except String Unit) (hbase : cfg.baseExists = true)
    (hskip : cfg.skip_metadata_if_exists = true)
    (hall : ∀ p, 1 ≤ p → p ≤ cfg.total_pages → hasCtx p = true) :
    run_context_step cfg hasCtx proc
      = (.stepSkipped "All pages already have context metadata"
          cfg.total_pages, []) := by
  unfold run_context_step
  rw [hbase]
  cases hm : cfg.max_pages with
  | none =>
    simp [hm]
    intro x h1 h2
    exact ⟨hall x h1 (by omega), hskip⟩
  | some m =>
    simp [hm]
    intro x h1 h2
    exact ⟨hall x h1 (by omega), hskip⟩

theorem c8_skip_if_exists_witness :
    run_context_step
        { baseExists := true, total_pages := 3, max_pages := none,
          skip_metadata_if_exists := true }
        (fun _ => true) (fun _ => .ok ())
      = (.stepSkipped "All pages already have context metadata" 3, []) :=
  c8_skip_if_exists _ _ _ rfl rfl (fun _ _ _ => rfl)

/-- C9 counterexample: a successful call through `chat` whose
`completion_cost` computation raises is swallowed by `add_call`'s
`try/except`: the call returns normally but the ledger is unchanged —
`call_count` stays 0 and no breakdown entry is added, refuting "for every
successful call ... the cost ledger is appended to". -/
theorem c9_counterexample :
    LitellmClient.chat c9client (.ok c9resp) (fun _ => none) none
        "image_metadata" = .ok (c9resp, c9client)
    ∧ c9client.cost_tracker.call_count = 0
    ∧ c9client.cost_tracker.cost_breakdown = [] :=
  ⟨rfl, rfl, rfl⟩

/-- C9 amended: for every successful call through `chat` whose cost
computation also succeeds, the ledger is appended to exactly as claimed
(call_count +1, token totals and total_cost increased by the call's usage,
one breakdown entry carrying the call_type and model); a successful call
whose cost computation raises leaves the ledger unchanged; and the counters
are zeroed only by the explicit reset — `add_call` never decreases
`call_count`, and `reset` zeroes every field. -/
theorem c9_cost_ledger (client : LitellmClient) (resp : ChatResponse)
    (costOf : ChatResponse → Option ℚ) (model_name : Option String)
    (call_type : String) (chosen : String)
    (hmodel : (match model_name with
      | some m => some m
      | none => client.model_name) = some chosen) :
    (∀ c : ℚ, costOf resp = some c →
      LitellmClient.chat client (.ok resp) costOf model_name call_type
        = .ok (resp,
          { client with
            cost_tracker :=
              { total_cost := client.cost_tracker.total_cost + c
                total_prompt_tokens := client.cost_tracker.total_prompt_tokens
                  + resp.usage.prompt_tokens.getD 0
                total_completion_tokens :=
                  client.cost_tracker.total_completion_tokens
                    + resp.usage.completion_tokens.getD 0
                total_tokens := client.cost_tracker.total_tokens
                  + resp.usage.total_tokens.getD 0
                call_count := client.cost_tracker.call_count + 1
                cost_breakdown := client.cost_tracker.cost_breakdown ++
                  [⟨call_type, chosen, c, resp.usage.prompt_tokens.getD 0,
                    resp.usage.completion_tokens.getD 0,
                    resp.usage.total_tokens.getD 0⟩] } }))
    ∧ (costOf resp = none →
        LitellmClient.chat client (.ok resp) costOf model_name call_type
          = .ok (resp, client))
    ∧ (∀ (t : CostTracker) (cr : Option ℚ) (u : Usage) (mn ct : String),
        t.call_count ≤ (t.add_call cr u mn ct).call_count)
    ∧ (∀ t : CostTracker, t.reset
        = { total_cost := 0, total_prompt_tokens := 0,
            total_completion_tokens := 0, total_tokens := 0, call_count := 0,
            cost_breakdown := [] }) := by
  refine ⟨?_, ?_, ?_, fun t => rfl⟩
  · intro c hc
    unfold LitellmClient.chat
    rw [hmodel]
    simp only [CostTracker.add_call, hc]
  · intro hc
    unfold LitellmClient.chat
    rw [hmodel]
    simp only [CostTracker.add_call, hc]
  · intro t cr u mn ct
    cases cr with
    | none => exact le_refl _
    | some c => exact Nat.le_succ _

theorem c9_cost_ledger_witness :
    LitellmClient.chat c9client (.ok c9resp) (fun _ => some (1 : ℚ)) none
        "image_metadata"
      = .ok (c9resp,
          { c9client with
            cost_tracker :=
              { total_cost := (0 : ℚ) + 1, total_prompt_tokens := 0 + 10,
                total_completion_tokens := 0 + 5, total_tokens := 0 + 15,
                call_count := 0 + 1,
                cost_breakdown :=
                  [] ++ [⟨"image_metadata", "openai/gpt-4o", 1, 10, 5, 15⟩] } }) :=
  by simpa [c9client, c9resp] using
    (c9_cost_ledger c9client c9resp (fun _ => some (1 : ℚ)) none
      "image_metadata" "openai/gpt-4o" rfl).1 1 rfl

theorem exceptBind_ok {ε α β : Type} (a : α) (f : α → Except ε β) :
    (Except.ok a >>= f) = f a := rfl

theorem exceptBind_error {ε α β : Type} (e : ε) (f : α → Except ε β) :
    ((Except.error e : Except ε α) >>= f) = .error e := rfl

theorem fileExists_iff_readFile (fs : FS) (p : String) :
    fs.fileExists p = true ↔ ∃ c, fs.readFile p = some c := by
  unfold FS.fileExists FS.readFile dictLookup
  rw [List.any_eq_true]
  constructor
  · rintro ⟨x, hx, hpx⟩
    have hsome : (fs.files.find? (fun q => q.1 = p)).isSome :=
      List.find?_isSome.2 ⟨x, hx, hpx⟩
    rcases Option.isSome_iff_exists.1 hsome with ⟨v, hv⟩
    exact ⟨v.2, by rw [hv]; rfl⟩
  · rintro ⟨c, hc⟩
    cases hfind : fs.files.find? (fun q => q.1 = p) with
    | none => rw [hfind] at hc; cases hc
    | some v =>
      have hv := List.find?_some hfind
      have hm := List.mem_of_find?_eq_some hfind
      exact ⟨v, hm, hv⟩

theorem readFile_eq_none (fs : FS) (p : String)
    (h : fs.fileExists p = false) : fs.readFile p = none := by
  unfold FS.readFile dictLookup
  cases hfind : fs.files.find? (fun q => q.1 = p) with
  | none => rfl
  | some v =>
    exfalso
    have hv := List.find?_some hfind
    have hm := List.mem_of_find?_eq_some hfind
    have hmem : fs.fileExists p = true := List.any_eq_true.2 ⟨v, hm, hv⟩
    rw [h] at hmem
    cases hmem

theorem okOr_read_json (fs : FS) (p : String) :
    okOr (read_json_file fs p) "" = (fs.readFile p).getD "" := by
  unfold read_json_file okOr
  cases fs.readFile p <;> rfl

theorem okOr_read_text (fs : FS) (p : String) :
    okOr (read_text_file fs p) "" = (fs.readFile p).getD "" := by
  unfold read_text_file okOr
  cases fs.readFile p <;> rfl

/-- When the page image is present, the page-loading block succeeds and the
metadata/text sub-reads degrade independently. -/
theorem loadPageData_of_image (fs : FS) (base : String) (n : Nat) (c : String)
    (hc : fs.readFile (pageImagePath base n) = some c) :
    loadPageData fs base n = .ok (degradedPageData fs base n) := by
  simp [loadPageData, degradedPageData, encode_image_to_data_uri, hc,
    okOr_read_json, okOr_read_text, exceptBind_ok]

/-- When the page image is missing, the page-loading block raises
`FileNotFoundError` from `open()` inside `encode_image_to_data_uri`. -/
theorem loadPageData_of_no_image (fs : FS) (base : String) (n : Nat)
    (h : fs.fileExists (pageImagePath base n) = false) :
    loadPageData fs base n
      = .error (.fileNotFoundError (pageImagePath base n)) := by
  have hr := readFile_eq_none fs _ h
  simp [loadPageData, encode_image_to_data_uri, hr, exceptBind_error]

/-- C2 counterexample: for page 1 with an existing directory but a missing
page image, `get_page_context` raises `FileNotFoundError` (from the unguarded
image read) instead of degrading the image sub-read to an empty value, even
though the current page's directory exists. -/
theorem c2_counterexample :
    get_page_context c2fs "doc" 1
      = .error (.fileNotFoundError "doc/page_1/page_1_full.png")
    ∧ c2fs.dirExists (pageDir "doc" 1) = true := ⟨rfl, rfl⟩

/-- C2 amended: the explicit `PageNotFound`-style error is raised exactly when
the current page's directory is missing, and a missing neighbor directory
degrades to an absent neighbor; the metadata and text sub-reads degrade
independently and silently to `"\x7b\x7d"` / `""`; but the page-image sub-read
does not degrade: a missing image file (for the current page, or for a
neighbor whose directory exists) raises `FileNotFoundError`. -/
theorem c2_page_context (fs : FS) (base : String) (n : Nat) (hn : 1 ≤ n) :
    (fs.dirExists (pageDir base n) = false →
      get_page_context fs base n = .error (.fileNotFoundError
        ("Page " ++ toString n ++ " directory not found at "
          ++ pageDir base n)))
    ∧ (fs.dirExists (pageDir base n) = true →
        fs.fileExists (pageImagePath base n) = false →
        get_page_context fs base n
          = .error (.fileNotFoundError (pageImagePath base n)))
    ∧ (fs.dirExists (pageDir base n) = true →
        fs.fileExists (pageImagePath base n) = true →
        (1 < n → fs.dirExists (pageDir base (n - 1)) = true →
          fs.fileExists (pageImagePath base (n - 1)) = true) →
        (fs.dirExists (pageDir base (n + 1)) = true →
          fs.fileExists (pageImagePath base (n + 1)) = true) →
        get_page_context fs base n = .ok
          { previous_page :=
              if decide (1 < n) && fs.dirExists (pageDir base (n - 1)) then
                some (degradedPageData fs base (n - 1))
              else none
            current_page := degradedPageData fs base n
            next_page :=
              if fs.dirExists (pageDir base (n + 1)) then
                some (degradedPageData fs base (n + 1))
              else none }) := by
  have hn1 : ¬ (n < 1) := by omega
  refine ⟨?_, ?_, ?_⟩
  · intro hdir
    simp [get_page_context, hn1, hdir]
  · intro hdir himg
    have hl := loadPageData_of_no_image fs base n himg
    simp [get_page_context, hn1, hdir, hl, exceptBind_error]
  · intro hdir himg hprev hnext
    rcases (fileExists_iff_readFile fs _).1 himg with ⟨c, hc⟩
    have hcur := loadPageData_of_image fs base n c hc
    have hload : ∀ k, fs.dirExists (pageDir base k) = true →
        fs.fileExists (pageImagePath base k) = true →
        loadPageData fs base k = .ok (degradedPageData fs base k) := by
      intro k hk hik
      rcases (fileExists_iff_readFile fs _).1 hik with ⟨d, hd⟩
      exact loadPageData_of_image fs base k d hd
    by_cases h1n : 1 < n
    · by_cases hpd : fs.dirExists (pageDir base (n - 1)) = true
      · by_cases hnd : fs.dirExists (pageDir base (n + 1)) = true
        · simp [get_page_context, hn1, hdir, hcur, h1n, hpd, hnd,
            hload (n - 1) hpd (hprev h1n hpd), hload (n + 1) hnd (hnext hnd),
            exceptBind_ok]
        · have hnd2 := Bool.eq_false_iff.2 hnd
          simp [get_page_context, hn1, hdir, hcur, h1n, hpd, hnd2,
            hload (n - 1) hpd (hprev h1n hpd), exceptBind_ok]
      · have hpd2 := Bool.eq_false_iff.2 hpd
        by_cases hnd : fs.dirExists (pageDir base (n + 1)) = true
        · simp [get_page_context, hn1, hdir, hcur, h1n, hpd2, hnd,
            hload (n + 1) hnd (hnext hnd), exceptBind_ok]
        · have hnd2 := Bool.eq_false_iff.2 hnd
          simp [get_page_context, hn1, hdir, hcur, h1n, hpd2, hnd2,
            exceptBind_ok]
    · have h1n2 : ¬ (n > 1) := h1n
      by_cases hnd : fs.dirExists (pageDir base (n + 1)) = true
      · simp [get_page_context, hn1, hdir, hcur, h1n2, hnd,
          hload (n + 1) hnd (hnext hnd), exceptBind_ok]
      · have hnd2 := Bool.eq_false_iff.2 hnd
        simp [get_page_context, hn1, hdir, hcur, h1n2, hnd2, exceptBind_ok]

theorem c2_page_context_witness :
    get_page_context
        { dirs := ["doc/page_1"],
          files := [("doc/page_1/page_1_full.png", "IMG")] } "doc" 1
      = .ok
        { previous_page := none
          current_page := degradedPageData
            { dirs := ["doc/page_1"],
              files := [("doc/page_1/page_1_full.png", "IMG")] } "doc" 1
          next_page := none } := by
  have h := (c2_page_context
    { dirs := ["doc/page_1"],
      files := [("doc/page_1/page_1_full.png", "IMG")] } "doc" 1
    (by decide)).2.2 rfl rfl (by intro h1 _; omega) (by intro h2; cases h2)
  simpa using h

end ComplexPdf
